import Mathlib

/-!
Verification of the HonestBite barcode pipeline's checksum validator,
sliding-window extractor, transform-engine dimension logic, and the
orchestrator's fallback control flow, shallowly embedded from the
JavaScript sources (frontend barcode scanner module and backend
`routes/barcode.js` / `services/barcodeDetector.js`).

Strings are embedded as Lean `String` (lists of characters); JS
`str.slice(i, i + len)` becomes `(s.data.drop i).take len`; machine
numbers that matter (canvas dimensions, scale factors) are embedded as
`Nat` / `ℚ` with JS `Math.round` being Mathlib's `round` (both equal
`⌊x + 1/2⌋`).  External engines (ZXing, Quagga, sharp, the Hugging Face
detector) are modelled as oracle parameters returning `Option`/`Except`
values, matching their throw/return behaviour at each call site.
-/

namespace HonestBite

/-! ## Checksum Validator (frontend barcode module) -/

/-- Test for an ASCII digit character, as matched by the JS regex class
in the validators' anchored regexes. -/
def isAsciiDigit (c : Char) : Bool := 48 ≤ c.toNat && c.toNat ≤ 57

/-- Numeric value of a digit character: JS `Number(c)` for `c` in `0`..`9`. -/
def digitVal (c : Char) : Nat := c.toNat - 48

/-- JS `code.split('').map(Number)` for a digit string. -/
def digitsOf (s : String) : List Nat := s.data.map digitVal

/-- The EAN-13 weighted sum: JS loop
`for (i = 0; i < 12; i++) sum += digits[i] * (i % 2 === 0 ? 1 : 3)`. -/
def ean13Sum (d : List Nat) : Nat :=
  (List.range 12).foldl (fun sum i => sum + d.getD i 0 * (if i % 2 = 0 then 1 else 3)) 0

/-- `isValidEAN13` from the frontend barcode module: requires exactly 13
digit characters, then compares `(10 - (sum % 10)) % 10` with the 13th
digit. -/
def isValidEAN13 (code : String) : Bool :=
  if code.data.length = 13 ∧ code.data.all isAsciiDigit then
    let digits := digitsOf code
    let check := digits.getD 12 0
    let sum := ean13Sum digits
    let calcCheck := (10 - sum % 10) % 10
    calcCheck == check
  else false

/-- The UPC-A odd/even position sums: JS loop
`for (i = 0; i < 11; i++) { if (i % 2 === 0) sumOdd += d[i] else sumEven += d[i] }`. -/
def upcaSums (d : List Nat) : Nat × Nat :=
  (List.range 11).foldl
    (fun p i => if i % 2 = 0 then (p.1 + d.getD i 0, p.2) else (p.1, p.2 + d.getD i 0))
    (0, 0)

/-- `isValidUPCA` from the frontend barcode module. -/
def isValidUPCA (code : String) : Bool :=
  if code.data.length = 12 ∧ code.data.all isAsciiDigit then
    let digits := digitsOf code
    let check := digits.getD 11 0
    let s := upcaSums digits
    ((10 - (s.1 * 3 + s.2) % 10) % 10) == check
  else false

/-- `isValidEAN8` from the frontend barcode module. -/
def isValidEAN8 (code : String) : Bool :=
  if code.data.length = 8 ∧ code.data.all isAsciiDigit then
    let d := digitsOf code
    let check := d.getD 7 0
    ((10 - (3 * (d.getD 0 0 + d.getD 2 0 + d.getD 4 0 + d.getD 6 0)
        + (d.getD 1 0 + d.getD 3 0 + d.getD 5 0)) % 10) % 10) == check
  else false

/-- JS `digits.slice(i, i + len)`. -/
def slice (s : String) (i len : Nat) : String := ⟨(s.data.drop i).take len⟩

/-- The windows visited by the inner `win` loop of
`findValidBarcodeInString`: `digits.slice(i, i + len)` for
`i = 0, 1, ...` while `i + len <= digits.length`, in that order. -/
def windows (digits : String) (len : Nat) : List String :=
  (List.range (digits.data.length + 1 - len)).map (fun i => slice digits i len)

/-- The inner helper `win(len, validator)` of `findValidBarcodeInString`:
returns the first window (left to right) accepted by the validator. -/
def win (digits : String) (len : Nat) (validator : String → Bool) : Option String :=
  (windows digits len).find? validator

/-- JS `s.slice(1)`: drop the leading character. -/
def dropHead (s : String) : String := ⟨s.data.drop 1⟩

/-- `findValidBarcodeInString` from the frontend barcode module: EAN-13
windows, then UPC-A windows, then EAN-8 windows, then (when at least 14
digits) 14-character windows whose tail is a valid EAN-13, in which case
the stripped 13-digit tail is returned. -/
def findValidBarcodeInString (digits : String) : Option String :=
  if digits.data.length = 0 then none
  else
    match win digits 13 isValidEAN13 with
    | some sub => some sub
    | none =>
      match win digits 12 isValidUPCA with
      | some sub => some sub
      | none =>
        match win digits 8 isValidEAN8 with
        | some sub => some sub
        | none =>
          if 14 ≤ digits.data.length then
            match win digits 14 (fun s => isValidEAN13 (dropHead s)) with
            | some sub => some (dropHead sub)
            | none => none
          else none

/-- `normalizeAndValidateBarcode` from the frontend barcode module:
null on an empty raw string, otherwise strip all non-digit characters
(JS `String(raw).replace` with the non-digit class) and run the
sliding-window search. -/
def normalizeAndValidateBarcode (raw : String) : Option String :=
  if raw.data.length = 0 then none
  else findValidBarcodeInString ⟨raw.data.filter isAsciiDigit⟩

/-! ## Arithmetic lemmas about the validators -/

lemma foldl_range_add (g : Nat → Nat) (n : Nat) :
    (List.range n).foldl (fun sum i => sum + g i) 0 = ∑ i ∈ Finset.range n, g i := by
  induction n with
  | zero => simp
  | succ n ih =>
    rw [List.range_succ, List.foldl_append, Finset.sum_range_succ, ih]
    simp

lemma ean13Sum_eq (d : List Nat) :
    ean13Sum d = ∑ i ∈ Finset.range 12, d.getD i 0 * (if i % 2 = 0 then 1 else 3) :=
  foldl_range_add (fun i => d.getD i 0 * (if i % 2 = 0 then 1 else 3)) 12

lemma digitVal_lt_ten {c : Char} (h : isAsciiDigit c = true) : digitVal c < 10 := by
  simp only [isAsciiDigit, Bool.and_eq_true, decide_eq_true_eq] at h
  simp only [digitVal]
  omega

lemma digitsOf_getD_lt (s : String) (h : s.data.all isAsciiDigit = true) (i : Nat) :
    (digitsOf s).getD i 0 < 10 := by
  rw [List.getD_eq_getElem?_getD]
  rcases h' : (digitsOf s)[i]? with - | v
  · simp
  · have hv : v ∈ digitsOf s := List.getElem?_mem h'
    simp only [digitsOf, List.mem_map] at hv
    obtain ⟨c, hc, rfl⟩ := hv
    rw [List.all_eq_true] at h
    simpa using digitVal_lt_ten (h c hc)

/-- C1: for a string of exactly 13 ASCII digits, `isValidEAN13` accepts
iff `(10 - Σ_0..11 d_i·w_i) mod 10 = d_12` with weights 1 on even and 3
on odd indices (integer arithmetic, Euclidean mod); any other string is
rejected. -/
theorem C1_isValidEAN13_spec (s : String) :
    isValidEAN13 s = true ↔
      s.data.length = 13 ∧ s.data.all isAsciiDigit = true ∧
        (10 - ∑ i ∈ Finset.range 12,
            ((digitsOf s).getD i 0 : ℤ) * (if i % 2 = 0 then 1 else 3)) % 10
          = ((digitsOf s).getD 12 0 : ℤ) := by
  simp only [isValidEAN13]
  split_ifs with h
  · obtain ⟨h1, h2⟩ := h
    simp only [h1, h2, true_and, beq_iff_eq]
    have hc : (digitsOf s).getD 12 0 < 10 := digitsOf_getD_lt s h2 12
    have hZ : ((ean13Sum (digitsOf s) : ℤ))
        = ∑ i ∈ Finset.range 12,
            ((digitsOf s).getD i 0 : ℤ) * (if i % 2 = 0 then 1 else 3) := by
      rw [ean13Sum_eq]
      push_cast
      rfl
    rw [← hZ]
    omega
  · simp only [Bool.false_eq_true, false_iff]
    rintro ⟨h1, h2, -⟩
    exact h ⟨h1, h2⟩

/-! ## Spec-side description of the sliding-window search

The spec describes `findValidBarcodeSubstring` as one pass over a fixed
ordered list of (window, symbology) pairs: all EAN-13 windows, then all
UPC-A windows, then all EAN-8 windows, then all 14-digit windows read as
a leading digit followed by a valid EAN-13; the first pair whose window
validates wins.  The definitions below follow that description (not the
code) so that the code can be proved to refine it. -/

/-- Symbology tags for the four window stages of the spec's search
order. -/
inductive Symbology
  | ean13
  | upca
  | ean8
  | ean13lead
deriving DecidableEq, Repr

/-- Window length of each stage described by the spec. -/
def symLen : Symbology → Nat
  | .ean13 => 13
  | .upca => 12
  | .ean8 => 8
  | .ean13lead => 14

/-- Stage validator described by the spec; the `ean13lead` stage accepts
a window that is one leading digit followed by a valid EAN-13. -/
def symCheck : Symbology → String → Bool
  | .ean13, w => isValidEAN13 w
  | .upca, w => isValidUPCA w
  | .ean8, w => isValidEAN8 w
  | .ean13lead, w => (w.data.head?.any isAsciiDigit) && isValidEAN13 (dropHead w)

/-- The windows of one stage, tagged with the stage's symbology. -/
def stageWindows (s : String) (sym : Symbology) : List (String × Symbology) :=
  (windows s (symLen sym)).map (fun w => (w, sym))

/-- The full ordered window list the spec describes: EAN-13, then UPC-A,
then EAN-8, then leading-digit EAN-13, each stage left to right. -/
def specWindowList (s : String) : List (String × Symbology) :=
  stageWindows s .ean13 ++ stageWindows s .upca ++ stageWindows s .ean8
    ++ stageWindows s .ean13lead

/-- The spec's result: the first window in the fixed order that
validates under its stage's checksum, with its symbology. -/
def specFirstWindow (s : String) : Option (String × Symbology) :=
  (specWindowList s).find? (fun p => symCheck p.2 p.1)

/-! ## Window lemmas -/

lemma mem_windows {w : String} (s : String) (len : Nat) :
    w ∈ windows s len ↔ ∃ i, i + len ≤ s.data.length ∧ slice s i len = w := by
  simp only [windows, List.mem_map, List.mem_range]
  constructor
  · rintro ⟨i, hi, rfl⟩
    exact ⟨i, by omega, rfl⟩
  · rintro ⟨i, hi, rfl⟩
    exact ⟨i, by omega, rfl⟩

lemma dropHead_slice (s : String) (i len : Nat) :
    dropHead (slice s i (len + 1)) = slice s (i + 1) len := by
  simp only [dropHead, slice]
  congr 1
  rw [List.drop_take, List.drop_drop]
  norm_num

/-- If no 13-character window is a valid EAN-13, then no 14-character
window can pass a validator that demands a valid EAN-13 tail: the tail
of such a window is itself a 13-character window sitting one position to
the right. -/
lemma win14_dead (s : String) (v : String → Bool)
    (hv : ∀ w, v w = true → isValidEAN13 (dropHead w) = true)
    (h13 : win s 13 isValidEAN13 = none) :
    win s 14 v = none := by
  rw [win, List.find?_eq_none] at h13 ⊢
  intro w hw hvw
  rw [mem_windows] at hw
  obtain ⟨i, hi, rfl⟩ := hw
  have htail : isValidEAN13 (slice s (i + 1) 13) = true := by
    have := hv _ hvw
    rwa [show (14 : Nat) = 13 + 1 from rfl, dropHead_slice] at this
  exact h13 (slice s (i + 1) 13) ((mem_windows s 13).mpr ⟨i + 1, by omega, rfl⟩) htail

/-- C2: on every string, `findValidBarcodeInString` returns exactly the
first window, in the spec's fixed stage order (EAN-13 windows, then
UPC-A, then EAN-8, then leading-digit-plus-EAN-13), that validates under
its stage's checksum, and `none` when no window validates.  The
14-character stage can never supply the first validating window (its
tail would already have validated in the EAN-13 stage), so the code's
stripping of the leading digit never changes the returned value. -/
lemma find?_stageWindows (s : String) (sym : Symbology) :
    (stageWindows s sym).find? (fun p => symCheck p.2 p.1)
      = (win s (symLen sym) (symCheck sym)).map (fun w => (w, sym)) := by
  rw [stageWindows, List.find?_map, win]
  rfl

theorem C2_first_validating_window (s : String) :
    findValidBarcodeInString s = (specFirstWindow s).map Prod.fst := by
  have h14c : win s 13 isValidEAN13 = none →
      win s 14 (fun t => isValidEAN13 (dropHead t)) = none :=
    win14_dead s _ (fun w h => h)
  have h14s : win s 13 isValidEAN13 = none →
      win s 14 (symCheck .ean13lead) = none :=
    win14_dead s _ (fun w h => by
      simp only [symCheck, Bool.and_eq_true] at h
      exact h.2)
  have hc13 : symCheck Symbology.ean13 = isValidEAN13 := rfl
  have hc12 : symCheck Symbology.upca = isValidUPCA := rfl
  have hc8 : symCheck Symbology.ean8 = isValidEAN8 := rfl
  rw [findValidBarcodeInString, specFirstWindow, specWindowList,
    List.find?_append, List.find?_append, List.find?_append,
    find?_stageWindows, find?_stageWindows, find?_stageWindows, find?_stageWindows]
  simp only [symLen, hc13, hc12, hc8]
  by_cases hL : s.data.length = 0
  · have hw : ∀ len, 0 < len → windows s len = [] := by
      intro len hlen
      rw [windows, hL]
      rw [show 0 + 1 - len = 0 by omega]
      rfl
    rw [if_pos hL, win, win, win, win, hw 13 (by omega), hw 12 (by omega),
      hw 8 (by omega), hw 14 (by omega)]
    rfl
  rw [if_neg hL]
  rcases h13 : win s 13 isValidEAN13 with - | w
  · rcases h12 : win s 12 isValidUPCA with - | w
    · rcases h8 : win s 8 isValidEAN8 with - | w
      · simp [h13, h12, h8, h14c h13, h14s h13, Option.or]
      · simp [h13, h12, h8, Option.or]
    · simp [h13, h12, Option.or]
  · simp [h13, Option.or]

/-! ## Result-shape lemmas -/

lemma isValidEAN13_shape {w : String} (h : isValidEAN13 w = true) :
    w.data.length = 13 ∧ w.data.all isAsciiDigit = true := by
  rw [isValidEAN13] at h
  split_ifs at h with hc
  exact hc

lemma isValidUPCA_shape {w : String} (h : isValidUPCA w = true) :
    w.data.length = 12 ∧ w.data.all isAsciiDigit = true := by
  rw [isValidUPCA] at h
  split_ifs at h with hc
  exact hc

lemma isValidEAN8_shape {w : String} (h : isValidEAN8 w = true) :
    w.data.length = 8 ∧ w.data.all isAsciiDigit = true := by
  rw [isValidEAN8] at h
  split_ifs at h with hc
  exact hc

/-- Any value produced by `findValidBarcodeInString` was accepted by one
of the three direct validators (the 14-character branch also yields an
EAN-13-validated string, namely the stripped tail). -/
lemma findValid_result {s r : String} (h : findValidBarcodeInString s = some r) :
    isValidEAN13 r = true ∨ isValidUPCA r = true ∨ isValidEAN8 r = true := by
  rw [findValidBarcodeInString] at h
  by_cases hL : s.data.length = 0
  · rw [if_pos hL] at h; cases h
  rw [if_neg hL] at h
  rcases h13 : win s 13 isValidEAN13 with - | w <;> rw [h13] at h
  · rcases h12 : win s 12 isValidUPCA with - | w <;> rw [h12] at h
    · rcases h8 : win s 8 isValidEAN8 with - | w <;> rw [h8] at h
      · by_cases h14len : 14 ≤ s.data.length
        · rw [if_pos h14len] at h
          rcases h14 : win s 14 (fun t => isValidEAN13 (dropHead t)) with - | sub <;>
            rw [h14] at h
          · cases h
          · simp only [Option.some.injEq] at h
            subst h
            exact Or.inl (by simpa using List.find?_some h14)
        · rw [if_neg h14len] at h
          cases h
      · simp only [Option.some.injEq] at h
        subst h
        exact Or.inr (Or.inr (List.find?_some h8))
    · simp only [Option.some.injEq] at h
      subst h
      exact Or.inr (Or.inl (List.find?_some h12))
  · simp only [Option.some.injEq] at h
    subst h
    exact Or.inl (List.find?_some h13)

/-- C10: every non-null result of `normalizeAndValidateBarcode` or of
`findValidBarcodeInString` is a pure ASCII-digit string of length
exactly 13, 12 or 8 satisfying the matching symbology's check equation
(EAN-13, UPC-A, EAN-8 respectively); in particular no 14-character
string is ever returned. -/
theorem C10_result_invariant (x r : String)
    (h : normalizeAndValidateBarcode x = some r ∨ findValidBarcodeInString x = some r) :
    r.data.all isAsciiDigit = true ∧
      ((r.data.length = 13 ∧ isValidEAN13 r = true) ∨
        (r.data.length = 12 ∧ isValidUPCA r = true) ∨
        (r.data.length = 8 ∧ isValidEAN8 r = true)) := by
  have hf : ∃ y, findValidBarcodeInString y = some r := by
    rcases h with h | h
    · rw [normalizeAndValidateBarcode] at h
      by_cases h0 : x.data.length = 0
      · rw [if_pos h0] at h
        cases h
      · rw [if_neg h0] at h
        exact ⟨_, h⟩
    · exact ⟨_, h⟩
  obtain ⟨y, hy⟩ := hf
  rcases findValid_result hy with hv | hv | hv
  · exact ⟨(isValidEAN13_shape hv).2, Or.inl ⟨(isValidEAN13_shape hv).1, hv⟩⟩
  · exact ⟨(isValidUPCA_shape hv).2, Or.inr (Or.inl ⟨(isValidUPCA_shape hv).1, hv⟩)⟩
  · exact ⟨(isValidEAN8_shape hv).2, Or.inr (Or.inr ⟨(isValidEAN8_shape hv).1, hv⟩)⟩

/-- C10 witness: a concrete accepted input, evaluated. -/
theorem C10_witness :
    (normalizeAndValidateBarcode "x8901030123450y" = some "8901030123450" ∨
        findValidBarcodeInString "x8901030123450y" = some "8901030123450") ∧
      (("8901030123450" : String).data.all isAsciiDigit = true ∧
        ((("8901030123450" : String).data.length = 13 ∧ isValidEAN13 "8901030123450" = true) ∨
          (("8901030123450" : String).data.length = 12 ∧ isValidUPCA "8901030123450" = true) ∨
          (("8901030123450" : String).data.length = 8 ∧ isValidEAN8 "8901030123450" = true))) :=
  ⟨Or.inl (by decide), C10_result_invariant "x8901030123450y" _ (Or.inl (by decide))⟩

/-! ## Leftmost-window lemmas (for C7) -/

lemma find?_map_range'_eq_some {α : Type} {a n : Nat} {f : Nat → α} {p : α → Bool} {b : α}
    (h : ((List.range' a n).map f).find? p = some b) :
    ∃ i, a ≤ i ∧ i < a + n ∧ f i = b ∧ p b = true ∧
      ∀ j, a ≤ j → j < i → p (f j) = false := by
  induction n generalizing a with
  | zero => simp at h
  | succ n ih =>
    rw [List.range'_succ, List.map_cons] at h
    by_cases hpa : p (f a) = true
    · rw [List.find?_cons_of_pos _ hpa] at h
      obtain rfl : f a = b := by injection h
      exact ⟨a, le_refl a, by omega, rfl, hpa, fun j h1 h2 => absurd h1 (by omega)⟩
    · rw [List.find?_cons_of_neg _ hpa] at h
      obtain ⟨i, hai, hin, hfb, hpb, hprev⟩ := ih h
      refine ⟨i, by omega, by omega, hfb, hpb, fun j h1 h2 => ?_⟩
      rcases Nat.eq_or_lt_of_le h1 with rfl | h1'
      · exact Bool.eq_false_iff.mpr hpa
      · exact hprev j h1' h2

lemma win_eq_some_leftmost {s w : String} {len : Nat} {v : String → Bool}
    (h : win s len v = some w) :
    ∃ i, i + len ≤ s.data.length ∧ slice s i len = w ∧ v w = true ∧
      ∀ j, j < i → v (slice s j len) = false := by
  rw [win, windows, List.range_eq_range'] at h
  obtain ⟨i, -, hin, hfb, hpb, hprev⟩ := find?_map_range'_eq_some h
  exact ⟨i, by omega, hfb, hpb, fun j hj => hprev j (Nat.zero_le j) hj⟩

lemma win_isSome_of_mem {s w : String} {len : Nat} {v : String → Bool}
    (hw : w ∈ windows s len) (hv : v w = true) : ∃ u, win s len v = some u := by
  have hs : (win s len v).isSome := by
    rw [win, List.find?_isSome]
    exact ⟨w, hw, hv⟩
  exact Option.isSome_iff_exists.mp hs

/-- C7 counterexample: a digit string that embeds the valid EAN-13
"4006381333931" (as a contiguous 13-character window) but on which
`findValidBarcodeInString` returns a different, earlier valid window,
so the search does not return every embedded valid EAN-13. -/
theorem C7_counterexample :
    ("4006381333931" : String) ∈ windows "89010301234504006381333931" 13 ∧
      isValidEAN13 "4006381333931" = true ∧
      ("89010301234504006381333931" : String).data.all isAsciiDigit = true ∧
      findValidBarcodeInString "89010301234504006381333931" ≠ some "4006381333931" := by
  decide

/-- C7 amended: when a digit string contains some contiguous 13-digit
window satisfying the EAN-13 checksum, `findValidBarcodeInString`
returns the leftmost 13-character window satisfying the EAN-13 checksum
(itself such an embedded substring, found by the EAN-13 stage); the
returned window is exactly the embedded one whenever no other 13-window
validates. -/
theorem C7_embedded_ean13 (s w : String) (hw : w ∈ windows s 13)
    (hv : isValidEAN13 w = true) :
    ∃ i, i + 13 ≤ s.data.length ∧
      findValidBarcodeInString s = some (slice s i 13) ∧
      isValidEAN13 (slice s i 13) = true ∧
      ∀ j, j < i → isValidEAN13 (slice s j 13) = false := by
  obtain ⟨u, hu⟩ := win_isSome_of_mem hw hv
  obtain ⟨i, hile, hslice, hvu, hprev⟩ := win_eq_some_leftmost hu
  have hL : ¬ s.data.length = 0 := by
    rcases (mem_windows s 13).mp hw with ⟨k, hk, -⟩
    omega
  refine ⟨i, hile, ?_, by rwa [hslice], hprev⟩
  rw [findValidBarcodeInString, if_neg hL, hu, hslice]

/-- C7 witness: the amended theorem applied to a concrete digit string
with one embedded valid EAN-13 surrounded by junk digits. -/
theorem C7_embedded_ean13_witness :
    (("4006381333931" : String) ∈ windows "940063813339317" 13 ∧
        isValidEAN13 "4006381333931" = true) ∧
      ∃ i, i + 13 ≤ ("940063813339317" : String).data.length ∧
        findValidBarcodeInString "940063813339317" = some (slice "940063813339317" i 13) ∧
        isValidEAN13 (slice "940063813339317" i 13) = true ∧
        ∀ j, j < i → isValidEAN13 (slice "940063813339317" j 13) = false :=
  ⟨⟨by decide, by decide⟩,
    C7_embedded_ean13 "940063813339317" "4006381333931" (by decide) (by decide)⟩

/-- C9 counterexample: the string the spec calls a known-valid EAN-13 is
in fact rejected by `isValidEAN13` (the weighted sum of its first 12
digits is 80, so the only valid check digit for this prefix is 0, not
6). -/
theorem C9_counterexample : isValidEAN13 "8901030123456" = false := by decide

/-- C9 amended: the correct check digit for the prefix 890103012345 is
0, so "8901030123450" passes `isValidEAN13` while both "8901030123456"
and the corrupted "8901030123457" fail. -/
theorem C9_check_digit_examples :
    isValidEAN13 "8901030123450" = true ∧
      isValidEAN13 "8901030123456" = false ∧
      isValidEAN13 "8901030123457" = false := by decide

/-! ## Transform Engine (frontend barcode module)

Only canvas dimensions are modelled: the pixel contents are produced by
the browser's `drawImage`, which is outside the embedding.  JS
`Math.round` is Mathlib's `round` on `ℚ` (both are `⌊x + 1/2⌋`,
including on negative inputs). -/

/-- A canvas, reduced to its dimension fields. -/
structure Canvas where
  width : Nat
  height : Nat
deriving DecidableEq, Repr

/-- `drawScaled(img, maxDim)`:
`scale = Math.min(1, maxDim / Math.max(w, h))`,
`w' = Math.max(1, Math.round(w * scale))` and likewise for the height. -/
def drawScaled (imgW imgH maxDim : Nat) : Canvas :=
  let scale : ℚ := min 1 ((maxDim : ℚ) / (max imgW imgH : Nat))
  { width := (max 1 (round ((imgW : ℚ) * scale))).toNat
    height := (max 1 (round ((imgH : ℚ) * scale))).toNat }

/-- Band axis selector of `cropCenterBand` (its `mode` string). -/
inductive BandMode
  | horizontal
  | vertical
deriving DecidableEq, Repr

/-- `cropCenterBand(canvas, mode, ratio)` dimension behaviour: the kept
fraction is clamped to `[0.1, 1]`; a vertical band keeps the full height
and `Math.round(w * r)` columns, a horizontal band keeps the full width
and `Math.round(h * r)` rows.  (The centring offset `x`/`y` only affects
which pixels are copied, not the output dimensions.) -/
def cropCenterBand (srcW srcH : Nat) (mode : BandMode) (frac : ℚ) : Canvas :=
  let r := min 1 (max (1 / 10) frac)
  match mode with
  | .vertical => { width := (round ((srcW : ℚ) * r)).toNat, height := srcH }
  | .horizontal => { width := srcW, height := (round ((srcH : ℚ) * r)).toNat }

lemma round_le_round {x y : ℚ} (h : x ≤ y) : round x ≤ round y := by
  rw [round_eq, round_eq]
  exact Int.floor_le_floor (by linarith)

/-- C6: for positive source dimensions and positive `maxDim`, the canvas
produced by `drawScaled` satisfies `max(width, height) ≤ maxDim`. -/
theorem C6_drawScaled_bounded (imgW imgH maxDim : Nat)
    (hw : 0 < imgW) (hh : 0 < imgH) (hm : 0 < maxDim) :
    max (drawScaled imgW imgH maxDim).width (drawScaled imgW imgH maxDim).height
      ≤ maxDim := by
  have key : ∀ d : Nat, 0 < d → d ≤ max imgW imgH →
      (max 1 (round ((d : ℚ) * min 1 ((maxDim : ℚ) / (max imgW imgH : Nat)))).toNat)
        ≤ maxDim := by
    intro d hd hdle
    have hM : (0 : ℚ) < ((max imgW imgH : Nat) : ℚ) := by
      have : 0 < max imgW imgH := lt_of_lt_of_le hw (le_max_left _ _)
      exact_mod_cast this
    have hscale : (d : ℚ) * min 1 ((maxDim : ℚ) / (max imgW imgH : Nat))
        ≤ (maxDim : ℚ) := by
      have h1 : (d : ℚ) * min 1 ((maxDim : ℚ) / (max imgW imgH : Nat))
          ≤ (d : ℚ) * ((maxDim : ℚ) / (max imgW imgH : Nat)) := by
        have hd0 : (0 : ℚ) ≤ (d : ℚ) := by positivity
        exact mul_le_mul_of_nonneg_left (min_le_right _ _) hd0
      have h2 : (d : ℚ) * ((maxDim : ℚ) / (max imgW imgH : Nat))
          ≤ ((max imgW imgH : Nat) : ℚ) * ((maxDim : ℚ) / (max imgW imgH : Nat)) := by
        have hdle' : (d : ℚ) ≤ ((max imgW imgH : Nat) : ℚ) := by exact_mod_cast hdle
        have hq : (0 : ℚ) ≤ (maxDim : ℚ) / (max imgW imgH : Nat) := by positivity
        exact mul_le_mul_of_nonneg_right hdle' hq
      have h3 : ((max imgW imgH : Nat) : ℚ) * ((maxDim : ℚ) / (max imgW imgH : Nat))
          = (maxDim : ℚ) := by
        field_simp
      calc (d : ℚ) * min 1 ((maxDim : ℚ) / (max imgW imgH : Nat))
          ≤ (d : ℚ) * ((maxDim : ℚ) / (max imgW imgH : Nat)) := h1
        _ ≤ _ := h2
        _ = _ := h3
    have hround : round ((d : ℚ) * min 1 ((maxDim : ℚ) / (max imgW imgH : Nat)))
        ≤ (maxDim : ℤ) := by
      have := round_le_round hscale
      rwa [round_natCast] at this
    have h1m : (1 : ℤ) ≤ (maxDim : ℤ) := by exact_mod_cast hm
    omega
  have h1 := key imgW hw (le_max_left _ _)
  have h2 := key imgH hh (le_max_right _ _)
  simp only [drawScaled] at h1 h2 ⊢
  omega

/-- C6 witness: the bound instantiated on a 3000×2000 source scaled to
fit 1600. -/
theorem C6_drawScaled_bounded_witness :
    (0 < 3000 ∧ 0 < 2000 ∧ 0 < 1600) ∧
      max (drawScaled 3000 2000 1600).width (drawScaled 3000 2000 1600).height
        ≤ 1600 :=
  ⟨⟨by decide, by decide, by decide⟩,
    C6_drawScaled_bounded 3000 2000 1600 (by decide) (by decide) (by decide)⟩

/-- C8 counterexample: `cropCenterBand` raises no error and silently
returns a zero dimension: on a 1×1 canvas with ratio 0.1 the kept band
height is `Math.round(0.1) = 0`. -/
theorem C8_counterexample :
    (cropCenterBand 1 1 BandMode.horizontal (1 / 10)).height = 0 := by
  have h1 : min (1 : ℚ) (max (1 / 10) (1 / 10)) = 1 / 10 := by norm_num
  have h2 : round ((1 : ℚ) * (1 / 10)) = 0 := by
    rw [one_mul, round_eq_zero_iff, Set.mem_Ico]
    norm_num
  simp only [cropCenterBand, h1, Nat.cast_one, h2, Int.toNat_zero]

/-- C8 amended: neither transform raises any error; `drawScaled` always
clamps both dimensions to at least 1, and `cropCenterBand` keeps both
dimensions positive whenever the source dimensions are positive and the
requested fraction is at least 1/2 (as at every call site, which uses
0.5 or 0.6) — but for smaller fractions it can silently return a
zero-dimension canvas. -/
theorem C8_positive_dims (w h maxDim : Nat) (mode : BandMode) (frac : ℚ)
    (hw : 0 < w) (hh : 0 < h) (hf : 1 / 2 ≤ frac) :
    (0 < (drawScaled w h maxDim).width ∧ 0 < (drawScaled w h maxDim).height) ∧
      (0 < (cropCenterBand w h mode frac).width ∧
        0 < (cropCenterBand w h mode frac).height) := by
  constructor
  · constructor <;>
    · simp only [drawScaled]
      omega
  · have hr : (1 : ℚ) / 2 ≤ min 1 (max (1 / 10) frac) := by
      rcases le_total frac 1 with h1 | h1
      · have : (1 : ℚ) / 2 ≤ max (1 / 10) frac := le_trans hf (le_max_right _ _)
        have h2 : max (1 / 10) frac ≤ 1 := by
          rcases max_cases (1 / 10 : ℚ) frac with ⟨he, -⟩ | ⟨he, -⟩ <;> rw [he]
          · norm_num
          · exact h1
        rw [min_eq_right h2]
        exact this
      · rw [min_eq_left]
        · norm_num
        · exact le_trans (by norm_num) (le_max_of_le_right h1)
    have key : ∀ d : Nat, 0 < d →
        0 < (round ((d : ℚ) * min 1 (max (1 / 10) frac))).toNat := by
      intro d hd
      have hd1 : (1 : ℚ) ≤ (d : ℚ) := by exact_mod_cast hd
      have hhalf : (1 : ℚ) / 2 ≤ (d : ℚ) * min 1 (max (1 / 10) frac) := by
        calc (1 : ℚ) / 2 ≤ min 1 (max (1 / 10) frac) := hr
          _ = 1 * min 1 (max (1 / 10) frac) := (one_mul _).symm
          _ ≤ (d : ℚ) * min 1 (max (1 / 10) frac) := by
              apply mul_le_mul_of_nonneg_right hd1
              exact le_trans (by norm_num) hr
      have hround : (1 : ℤ) ≤ round ((d : ℚ) * min 1 (max (1 / 10) frac)) := by
        rw [round_eq]
        rw [Int.le_floor]
        push_cast
        linarith
      omega
    cases mode <;> simp only [cropCenterBand] <;>
      exact ⟨by first | exact hw | exact key w hw, by first | exact hh | exact key h hh⟩

/-- C8 witness: positivity at a 1×1 canvas with the call-site fraction
0.5 and at `drawScaled` with bound 1600. -/
theorem C8_positive_dims_witness :
    (0 < 1 ∧ 0 < 1 ∧ (1 : ℚ) / 2 ≤ 1 / 2) ∧
      ((0 < (drawScaled 1 1 1600).width ∧ 0 < (drawScaled 1 1 1600).height) ∧
        (0 < (cropCenterBand 1 1 BandMode.horizontal (1 / 2)).width ∧
          0 < (cropCenterBand 1 1 BandMode.horizontal (1 / 2)).height)) :=
  ⟨⟨by decide, by decide, by norm_num⟩,
    C8_positive_dims 1 1 1600 BandMode.horizontal (1 / 2)
      (by decide) (by decide) (by norm_num)⟩

/-! ## The frontend decode loop (for C3)

The `for (const { canvas, label } of attempts)` loop of
`scanBarcodeFromImage`: each attempt is handed to the ZXing reader,
whose `decodeFromCanvas` either throws (the `catch` records the error
and the loop continues) or yields a result whose text is returned
immediately.  One attempt's outcome is modelled as an oracle
`dec : α → Option String` (`none` for a throw or a text-less result);
`decodeAttemptsTrace` additionally records, in order, every attempt the
loop actually evaluated. -/

/-- The decode loop: return the text of the first successful attempt,
`none` when every attempt fails. -/
def decodeAttempts {α : Type} (dec : α → Option String) : List α → Option String
  | [] => none
  | a :: rest =>
    match dec a with
    | some t => some t
    | none => decodeAttempts dec rest

/-- The decode loop, instrumented with the list of attempts it
evaluates (in evaluation order). -/
def decodeAttemptsTrace {α : Type} (dec : α → Option String) :
    List α → Option String × List α
  | [] => (none, [])
  | a :: rest =>
    match dec a with
    | some t => (some t, [a])
    | none =>
      let p := decodeAttemptsTrace dec rest
      (p.1, a :: p.2)

lemma decodeAttemptsTrace_fst {α : Type} (dec : α → Option String) (l : List α) :
    (decodeAttemptsTrace dec l).1 = decodeAttempts dec l := by
  induction l with
  | nil => rfl
  | cons a rest ih =>
    simp only [decodeAttemptsTrace, decodeAttempts]
    rcases dec a with - | t
    · simpa using ih
    · rfl

/-- C3: when at least two attempts in the list would succeed, the loop
returns the result of the earliest-ordered successful attempt and
evaluates exactly the attempts up to and including it — attempts after
the first success are never evaluated. -/
theorem C3_first_success_wins {α : Type} (dec : α → Option String)
    (attempts : List α) (i j : Nat) (t u : String)
    (hij : i < j) (hj : j < attempts.length)
    (hi : (attempts.map dec).getD i none = some t)
    (hju : (attempts.map dec).getD j none = some u)
    (hmin : ∀ k, k < i → (attempts.map dec).getD k none = none) :
    decodeAttemptsTrace dec attempts = (some t, attempts.take (i + 1)) := by
  induction attempts generalizing i j with
  | nil => simp at hj
  | cons a rest ih =>
    rcases i with - | i
    · simp only [List.map_cons, List.getD_cons_zero] at hi
      simp [decodeAttemptsTrace, hi]
    · have h0 : dec a = none := by
        have := hmin 0 (Nat.succ_pos i)
        simpa using this
      rcases j with - | j
      · omega
      · have htail : decodeAttemptsTrace dec rest = (some t, rest.take (i + 1)) := by
          refine ih i j (by omega) (by simpa using hj) ?_ ?_ ?_
          · simpa using hi
          · simpa using hju
          · intro k hk
            have := hmin (k + 1) (by omega)
            simpa using this
        simp [decodeAttemptsTrace, h0, htail]

/-- C3 witness: the spec's own test scenario — attempts indexed 0..5
where attempts 3 and 5 both succeed; the loop returns attempt 3's
result and evaluates only attempts 0..3. -/
theorem C3_first_success_wins_witness :
    ((3 : Nat) < 5 ∧ 5 < ([0, 1, 2, 3, 4, 5] : List Nat).length ∧
        (([0, 1, 2, 3, 4, 5] : List Nat).map
            (fun n => if n = 3 ∨ n = 5 then some "hit" else none)).getD 3 none
          = some "hit") ∧
      decodeAttemptsTrace (fun n => if n = 3 ∨ n = 5 then some "hit" else none)
          [0, 1, 2, 3, 4, 5]
        = (some "hit", [0, 1, 2, 3]) :=
  ⟨⟨by decide, by decide, by decide⟩,
    C3_first_success_wins (fun n => if n = 3 ∨ n = 5 then some "hit" else none)
      [0, 1, 2, 3, 4, 5] 3 5 "hit" "hit" (by decide) (by decide) (by decide)
      (by decide) (by decide)⟩

/-! ## Backend extract handler (`routes/barcode.js`, for C4 and C5)

`extractHandler` is modelled over oracles: `detectResult` is the
(awaited) outcome of `detectBarcodesHF` (`Except.error` when it throws,
e.g. on an HTTP error or the transient model-loading state), `prepFull`
the outcome of re-encoding the full image to PNG, `decCrop det s` the
outcome of cropping detection `det` and decoding the crop at scale `s`
(`Except.error` when sharp/ZXing throws, `.ok none` for a clean
no-decode), and `decFull s` the same for the full-image fallback at
scale `s`.  Only the response data (status, boxes, barcodes) is
modelled; timing and logging are not. -/

/-- A normalized detection as produced by `detectBarcodesHF`:
`{box: [x, y, w, h], label, score}`. -/
structure Detection where
  x : Int
  y : Int
  w : Int
  h : Int
  label : String
  score : ℚ
deriving DecidableEq, Repr

/-- One entry of the response's `barcodes` array. -/
structure BarcodeHit where
  text : String
  box : List Int
  score : ℚ
deriving DecidableEq, Repr

/-- The JSON response of a successful `extractHandler` run. -/
structure ExtractResponse where
  status : Nat
  boxes : List Detection
  barcodes : List BarcodeHit
deriving DecidableEq, Repr

/-- Handler outcome: a JSON response, or the early 400 reply when no
file field was present. -/
inductive HandlerResult
  | ok (resp : ExtractResponse)
  | badRequest (msg : String)
deriving DecidableEq, Repr

/-- The scale factors tried by both decode paths: `[1, 1.5, 2]`. -/
def decodeScales : List ℚ := [1, 3 / 2, 2]

/-- The per-detection inner scale loop:
`for (const s of scales) { scaled = ...; decoded = await zxing(scaled); if (decoded) break }`.
A throw aborts the whole per-detection `try` block. -/
def decodeDetAtScales (decCrop : Detection → ℚ → Except String (Option String))
    (det : Detection) : List ℚ → Except String (Option String)
  | [] => .ok none
  | s :: rest =>
    match decCrop det s with
    | .error e => .error e
    | .ok (some t) => .ok (some t)
    | .ok none => decodeDetAtScales decCrop det rest

/-- The `for (const det of detections)` loop: degenerate boxes
(`w < 5 || h < 5`) are skipped, each successful decode pushes one
`{text, box, score}` entry, and a per-detection throw is caught and the
loop continues with the next detection. -/
def cropLoop (decCrop : Detection → ℚ → Except String (Option String)) :
    List Detection → List BarcodeHit
  | [] => []
  | det :: rest =>
    if det.w < 5 ∨ det.h < 5 then cropLoop decCrop rest
    else
      match decodeDetAtScales decCrop det decodeScales with
      | .ok (some t) =>
        { text := t.trim, box := [det.x, det.y, det.w, det.h], score := det.score }
          :: cropLoop decCrop rest
      | _ => cropLoop decCrop rest

/-- The full-image fallback loop: first decoded scale pushes one entry
and breaks; a throw is caught by the surrounding `try`, leaving the
(still empty) barcode list as is. -/
def fallbackLoop (decFull : ℚ → Except String (Option String)) :
    List ℚ → List BarcodeHit
  | [] => []
  | s :: rest =>
    match decFull s with
    | .error _ => []
    | .ok (some t) => [{ text := t.trim, box := [0, 0, 0, 0], score := 0 }]
    | .ok none => fallbackLoop decFull rest

/-- `extractHandler`: reject a missing upload with 400; otherwise run
detection (a throw is caught, `hfFailed` is logged and the detection
list stays empty), then either the per-detection crop loop or — when
the detection list is empty — the full-image fallback, and reply with
`{boxes: detections, barcodes}`. -/
def extractHandler (hasFile : Bool)
    (detectResult : Except String (List Detection))
    (prepFull : Except String Unit)
    (decCrop : Detection → ℚ → Except String (Option String))
    (decFull : ℚ → Except String (Option String)) : HandlerResult :=
  if !hasFile then .badRequest "No image uploaded. Use form field image."
  else
    let detections := match detectResult with
      | .ok ds => ds
      | .error _ => []
    let barcodes :=
      if detections.length > 0 then cropLoop decCrop detections
      else
        match prepFull with
        | .error _ => []
        | .ok _ => fallbackLoop decFull decodeScales
    .ok { status := 200, boxes := detections, barcodes := barcodes }

/-- C4: when the detector throws and every full-image fallback decode
attempt fails (cleanly or by throwing), the handler still answers with
the normal 200 response carrying empty box and barcode lists — it
neither throws nor reports an error status. -/
theorem C4_detector_failure_not_found (e : String)
    (prepFull : Except String Unit)
    (decCrop : Detection → ℚ → Except String (Option String))
    (decFull : ℚ → Except String (Option String))
    (hfail : ∀ s t, s ∈ decodeScales → decFull s ≠ .ok (some t)) :
    extractHandler true (.error e) prepFull decCrop decFull
      = .ok { status := 200, boxes := [], barcodes := [] } := by
  have hfb : ∀ l : List ℚ, (∀ s t, s ∈ l → decFull s ≠ .ok (some t)) →
      fallbackLoop decFull l = [] := by
    intro l
    induction l with
    | nil => intro _; rfl
    | cons s rest ih =>
      intro hl
      rw [fallbackLoop]
      rcases hs : decFull s with e' | o
      · rfl
      · rcases o with - | t
        · exact ih (fun s' t' hs' => hl s' t' (List.mem_cons_of_mem _ hs'))
        · exact absurd hs (hl s t (List.mem_cons_self _ _))
  rw [extractHandler.eq_def]
  rcases prepFull with e' | u
  · rfl
  · simp only [Bool.not_true, Bool.false_eq_true, if_false, List.length_nil,
      gt_iff_lt, lt_self_iff_false, hfb decodeScales hfail]

/-- C4 witness: concrete stub oracles — the detector throws and every
decode returns a clean no-decode. -/
theorem C4_detector_failure_not_found_witness :
    (∀ s t, s ∈ decodeScales → (fun _ : ℚ => (.ok none : Except String (Option String))) s ≠ .ok (some t)) ∧
      extractHandler true (.error "HF 503") (.ok ())
          (fun _ _ => .ok none) (fun _ => .ok none)
        = .ok { status := 200, boxes := [], barcodes := [] } :=
  ⟨fun s t _ h => Option.noConfusion (Except.ok.inj h),
    C4_detector_failure_not_found "HF 503" (.ok ())
      (fun _ _ => .ok none) (fun _ => .ok none)
      (fun s t _ h => Option.noConfusion (Except.ok.inj h))⟩

/-- The barcode list of a handler outcome (empty for the 400 reply). -/
def handlerBarcodes : HandlerResult → List BarcodeHit
  | .ok resp => resp.barcodes
  | .badRequest _ => []

/-- The box list of a handler outcome (empty for the 400 reply). -/
def handlerBoxes : HandlerResult → List Detection
  | .ok resp => resp.boxes
  | .badRequest _ => []

/-- C5 counterexample: with two detector candidates whose crops both
decode, the backend handler's response carries two barcodes — the
per-candidate loop has no early exit across candidates, so the result
is not limited to one validated barcode. -/
theorem C5_counterexample :
    (handlerBarcodes (extractHandler true
        (.ok [⟨0, 0, 10, 10, "barcode", 1 / 2⟩, ⟨20, 0, 10, 10, "barcode", 1 / 2⟩])
        (.ok ())
        (fun _ _ => .ok (some "4006381333931"))
        (fun _ => .ok none))).length = 2 := by
  rfl

/-- C5 amended: the frontend scanner returns at most one barcode (its
loop returns on the first success), and the backend handler returns at
most one barcode from the full-image fallback path; the per-candidate
crop path instead may contribute up to one barcode per detector
candidate, so the response's barcode list is bounded by
`max 1 (number of returned boxes)`, not by 1. -/
theorem C5_at_most_one_per_candidate (hasFile : Bool)
    (detectResult : Except String (List Detection))
    (prepFull : Except String Unit)
    (decCrop : Detection → ℚ → Except String (Option String))
    (decFull : ℚ → Except String (Option String)) :
    (handlerBarcodes
        (extractHandler hasFile detectResult prepFull decCrop decFull)).length
      ≤ max 1 (handlerBoxes
        (extractHandler hasFile detectResult prepFull decCrop decFull)).length := by
  have hcrop : ∀ l : List Detection, (cropLoop decCrop l).length ≤ l.length := by
    intro l
    induction l with
    | nil => simp [cropLoop]
    | cons det rest ih =>
      rw [cropLoop]
      split_ifs
      · exact le_trans ih (by simp)
      · rcases decodeDetAtScales decCrop det decodeScales with e | o
        · exact le_trans ih (by simp)
        · rcases o with - | t
          · exact le_trans ih (by simp)
          · simpa using ih
  have hfb : ∀ l : List ℚ, (fallbackLoop decFull l).length ≤ 1 := by
    intro l
    induction l with
    | nil => simp [fallbackLoop]
    | cons s rest ih =>
      rw [fallbackLoop]
      rcases decFull s with e | o
      · simp
      · rcases o with - | t
        · exact ih
        · simp
  rw [extractHandler.eq_def]
  rcases hasFile with - | -
  · simp [handlerBarcodes, handlerBoxes]
  · simp only [Bool.not_true, Bool.false_eq_true, if_false]
    rcases detectResult with e | ds
    · simp only [handlerBarcodes, handlerBoxes, List.length_nil, gt_iff_lt,
        lt_self_iff_false, if_false]
      rcases prepFull with e' | u
      · simp
      · exact le_trans (hfb decodeScales) (by simp)
    · simp only [handlerBarcodes, handlerBoxes]
      split_ifs with hlen
      · exact le_trans (hcrop ds) (le_max_right _ _)
      · rcases prepFull with e' | u
        · simp
        · exact le_trans (hfb decodeScales) (le_max_left _ _)

end HonestBite
